import Mathlib

/-!
Verification development for the `anylog` log-line parsing library
(`src/parser.rs`, `src/types.rs`).

The library is embedded shallowly:

* a log line is a `List Nat` of bytes;
* the process environment (current instant, ambient local zone) is an
  explicit `Env` record, since the source reads `Local::now()` /
  `Local::today()` / `Utc::today()`; the ambient `Local` zone is modelled
  as a fixed offset in minutes;
* each of the seven anchored regular expressions of `parser.rs` is
  translated to a deterministic byte-list matcher (every optional or
  repeated element of those regexes has a follow-set disjoint from the
  element itself, so greedy matching never needs backtracking);
* chrono's panicking constructors (`TimeZone::ymd`, `Date::and_hms`,
  `FixedOffset::east`) and the panicking `str::parse().unwrap()` integer
  overflow are modelled by `Except.error ()`; `and_hms_opt` returning
  `None` is modelled by a pattern non-match, exactly as in the source.
-/

/-- A raw input line: a sequence of bytes (each `< 256`). -/
abbrev Bytes := List Nat

/-- The bytes of an ASCII string literal, used to write concrete inputs. -/
def bsOf (s : String) : Bytes := s.data.map Char.toNat

/-- `u32::MAX`; `str::parse::<u32>().unwrap()` panics above this. -/
def u32Max : Nat := 4294967295

/-- `i32::MAX`; `str::parse::<i32>().unwrap()` panics above this. -/
def i32Max : Nat := 2147483647

/-- Proleptic-Gregorian leap year test, as used by chrono's calendar. -/
def isLeap (y : Int) : Bool := y % 4 == 0 && (y % 100 != 0 || y % 400 == 0)

/-- Number of days in a month of a given year. -/
def daysInMonth (y : Int) (m : Nat) : Nat :=
  if m == 2 then (if isLeap y then 29 else 28)
  else if m == 4 || m == 6 || m == 9 || m == 11 then 30 else 31

/-- Validity of calendar date fields, as checked by chrono's
`NaiveDate::from_ymd_opt` (year limited to chrono's representable range). -/
def dateValid (y : Int) (m d : Nat) : Bool :=
  1 ≤ m && m ≤ 12 && 1 ≤ d && d ≤ daysInMonth y m && -262144 ≤ y && y ≤ 262143

/-- Validity of time-of-day fields, as checked by `and_hms_opt`. -/
def timeValid (h mi s : Nat) : Bool := h < 24 && mi < 60 && s < 60

/-- A civil (wall-clock) date-time, the field content of a chrono
`NaiveDateTime`. -/
structure CivilDT where
  year : Int
  month : Nat
  day : Nat
  hour : Nat
  minute : Nat
  second : Nat
deriving DecidableEq

/-- Days since 1970-01-01 of a civil date (Gregorian, astronomical years). -/
def daysFromCivil (y0 : Int) (m d : Nat) : Int :=
  let y := if m ≤ 2 then y0 - 1 else y0
  let era := y.fdiv 400
  let yoe := (y - era * 400).toNat
  let mp := if 3 ≤ m then m - 3 else m + 9
  let doy := (153 * mp + 2) / 5 + d - 1
  let doe := yoe * 365 + yoe / 4 - yoe / 100 + doy
  era * 146097 + (doe : Int) - 719468

/-- Seconds since the epoch of a civil date-time read as UTC. -/
def civilToSeconds (c : CivilDT) : Int :=
  daysFromCivil c.year c.month c.day * 86400
    + ((c.hour * 3600 + c.minute * 60 + c.second : Nat) : Int)

/-- Civil date of a day count since 1970-01-01. -/
def civilFromDays (z0 : Int) : Int × Nat × Nat :=
  let z := z0 + 719468
  let era := z.fdiv 146097
  let doe := (z - era * 146097).toNat
  let yoe := (doe - doe / 1460 + doe / 36524 - doe / 146096) / 365
  let y : Int := (yoe : Int) + era * 400
  let doy := doe - (365 * yoe + yoe / 4 - yoe / 100)
  let mp := (5 * doy + 2) / 153
  let d := doy - (153 * mp + 2) / 5 + 1
  let m := if mp < 10 then mp + 3 else mp - 9
  (if m ≤ 2 then y + 1 else y, m, d)

/-- Civil date-time of an instant (seconds since the epoch) read as UTC. -/
def secondsToCivil (t : Int) : CivilDT :=
  let days := t.fdiv 86400
  let sod := (t - days * 86400).toNat
  let ymd := civilFromDays days
  ⟨ymd.1, ymd.2.1, ymd.2.2, sod / 3600, sod % 3600 / 60, sod % 60⟩

/-- The process environment read by the source: the current instant
(`Local::now()` / `Utc::today()`) and the ambient local zone, modelled as a
fixed offset in minutes east of UTC. -/
structure Env where
  nowUtcSeconds : Int
  localOffsetMinutes : Int
deriving DecidableEq

/-- The civil date-time `Local::now()` shows in the ambient zone. -/
def nowLocalCivil (env : Env) : CivilDT :=
  secondsToCivil (env.nowUtcSeconds + env.localOffsetMinutes * 60)

/-- `parser.rs` `today`: the (year, month, day) used by the Simple pattern.
With no override it is the date of `Local::today()`.  With an override the
source computes `Utc::today().with_timezone(&offset)`, but chrono 0.4's
`Date::with_timezone` merely re-tags the stored `NaiveDate` without
changing it (`naive_local` equals `naive_utc`, and `Datelike` reads the
stored date), so the result is the current UTC calendar date whatever the
offset's value. -/
def today (env : Env) (off : Option Int) : Int × Nat × Nat :=
  match off with
  | none => let c := nowLocalCivil env; (c.year, c.month, c.day)
  | some _ => let c := secondsToCivil env.nowUtcSeconds; (c.year, c.month, c.day)

/-- `types.rs` `Timestamp`: the three time-zone provenances.  The `localTs`
and `fixed` forms carry the civil fields together with the offset (minutes
east of UTC) under which they were read, as chrono's `DateTime` does. -/
inductive Timestamp where
  | utc (c : CivilDT)
  | localTs (c : CivilDT) (offMinutes : Int)
  | fixed (c : CivilDT) (offMinutes : Int)
deriving DecidableEq

/-- `Timestamp::to_utc` as an instant: seconds since the epoch. -/
def Timestamp.toUtcSeconds : Timestamp → Int
  | .utc c => civilToSeconds c
  | .localTs c off => civilToSeconds c - off * 60
  | .fixed c off => civilToSeconds c - off * 60

/-- The zone-provenance tag of a `Timestamp`. -/
inductive ZoneKind where
  | utcK
  | localK
  | fixedK
deriving DecidableEq

/-- Which constructor a `Timestamp` uses. -/
def Timestamp.kind : Timestamp → ZoneKind
  | .utc _ => .utcK
  | .localTs _ _ => .localK
  | .fixed _ _ => .fixedK

/-- The civil fields stored in a `Timestamp`. -/
def Timestamp.civil : Timestamp → CivilDT
  | .utc c => c
  | .localTs c _ => c
  | .fixed c _ => c

/-- `types.rs` `LogEntry`.  The message is kept as the raw captured bytes;
the source applies `String::from_utf8_lossy` to exactly these bytes. -/
structure LogEntry where
  timestamp : Option Timestamp
  message : Bytes
deriving DecidableEq

/-- `LogEntry::utc_timestamp` as an instant in seconds. -/
def LogEntry.utcSeconds (e : LogEntry) : Option Int :=
  e.timestamp.map Timestamp.toUtcSeconds

/-- The zone kind of an entry's timestamp, if any. -/
def LogEntry.zoneKind (e : LogEntry) : Option ZoneKind :=
  e.timestamp.map Timestamp.kind

/-- The civil year of an entry's timestamp, if any. -/
def LogEntry.tsYear (e : LogEntry) : Option Int :=
  e.timestamp.map (fun t => t.civil.year)

/-- A deterministic anchored matcher over a byte list: consumes a prefix,
returns a captured value and the unconsumed rest. -/
def Rx (α : Type) : Type := Bytes → Option (α × Bytes)

/-- Sequencing of matchers. -/
def Rx.bindR {α β : Type} (m : Rx α) (f : α → Rx β) : Rx β := fun s =>
  match m s with
  | none => none
  | some (a, r) => f a r

/-- Matchers form a monad under sequencing. -/
instance : Monad Rx where
  pure a := fun s => some (a, s)
  bind := Rx.bindR

/-- Is a byte an ASCII digit (`[0-9]`)? -/
def isDigitB (b : Nat) : Bool := 48 ≤ b && b ≤ 57

/-- Decimal value of a digit-byte string. -/
def natOfDigits (l : Bytes) : Nat := l.foldl (fun a b => a * 10 + (b - 48)) 0

/-- Strip an exact byte-sequence from the front. -/
def stripLit : Bytes → Bytes → Option Bytes
  | [], s => some s
  | _ :: _, [] => none
  | p :: ps, c :: s => if c == p then stripLit ps s else none

/-- One mandatory byte. -/
def rxByte (b : Nat) : Rx Unit := fun s =>
  match s with
  | [] => none
  | c :: r => if c == b then some ((), r) else none

/-- One optional byte (e.g. `\[?`, `\]?`, `:?`, `,?`); greedy, which is exact
because in every use the following construct cannot match this byte. -/
def rxOptByte (b : Nat) : Rx Unit := fun s =>
  match s with
  | [] => some ((), [])
  | c :: r => if c == b then some ((), r) else some ((), s)

/-- Exactly `n` digits (`[0-9]{n}`), returning their value. -/
def rxDigitsN : Nat → Nat → Rx Nat
  | 0, acc => fun s => some (acc, s)
  | n + 1, acc => fun s =>
    match s with
    | [] => none
    | c :: r => if isDigitB c then rxDigitsN n (acc * 10 + (c - 48)) r else none

/-- `[0-9]{2}`. -/
def rxDigits2 : Rx Nat := rxDigitsN 2 0

/-- `[0-9]{4}`. -/
def rxDigits4 : Rx Nat := rxDigitsN 4 0

/-- `([0-9]+)`: a maximal non-empty digit run (the follow-set never contains
a digit), returning its value. -/
def rxDigitsRun : Rx Nat := fun s =>
  match s.takeWhile isDigitB with
  | [] => none
  | ds => some (natOfDigits ds, s.dropWhile isDigitB)

/-- `\x20+`: one or more spaces, maximal. -/
def rxSpaces1 : Rx Unit := fun s =>
  match s with
  | [] => none
  | c :: r => if c == 32 then some ((), r.dropWhile (· == 32)) else none

/-- `[\t\x20]`: the tab-or-space separator. -/
def rxSep : Rx Unit := fun s =>
  match s with
  | [] => none
  | c :: r => if c == 9 || c == 32 then some ((), r) else none

/-- `([+-])`: `true` for `+`, `false` for `-`. -/
def rxPlusMinus : Rx Bool := fun s =>
  match s with
  | [] => none
  | c :: r =>
    if c == 43 then some (true, r)
    else if c == 45 then some (false, r)
    else none

/-- `(?:\.[0-9]+)?`: an optional fraction; greedy, exact because the
following construct never matches `.` or a digit. -/
def rxOptFrac : Rx Unit := fun s =>
  match s with
  | c :: c2 :: r =>
    if c == 46 && isDigitB c2 then some ((), (c2 :: r).dropWhile isDigitB) else some ((), s)
  | _ => some ((), s)

/-- The seven weekday abbreviations of `(?:Mon|Tue|Wed|Thu|Fri|Sat|Sun)`. -/
def weekdayNames : List Bytes :=
  [bsOf "Mon", bsOf "Tue", bsOf "Wed", bsOf "Thu", bsOf "Fri", bsOf "Sat", bsOf "Sun"]

/-- Strip the first alternative of a literal alternation that matches. -/
def stripAnyLit : List Bytes → Bytes → Option Bytes
  | [], _ => none
  | p :: ps, s =>
    match stripLit p s with
    | some r => some r
    | none => stripAnyLit ps s

/-- `(?:Mon|...|Sun)\x20`: mandatory weekday and space (pattern #1). -/
def rxWkdSp : Rx Unit := fun s =>
  match stripAnyLit weekdayNames s with
  | none => none
  | some r =>
    match r with
    | [] => none
    | c :: r2 => if c == 32 then some ((), r2) else none

/-- `(?:(?:Mon|...|Sun)\x20)?`: optional weekday-plus-space group; if the
group cannot complete, matching resumes at the original position. -/
def rxOptWkdSp : Rx Unit := fun s =>
  match stripAnyLit weekdayNames s with
  | none => some ((), s)
  | some r =>
    match r with
    | [] => some ((), s)
    | c :: r2 => if c == 32 then some ((), r2) else some ((), s)

/-- The month alternation `(Jan|Feb|...|Dec)` combined with `get_month`:
returns the month number 1–12 (`get_month` is total on the capture, so its
`unwrap` never panics). -/
def monthTable : List (Bytes × Nat) :=
  [(bsOf "Jan", 1), (bsOf "Feb", 2), (bsOf "Mar", 3), (bsOf "Apr", 4),
   (bsOf "May", 5), (bsOf "Jun", 6), (bsOf "Jul", 7), (bsOf "Aug", 8),
   (bsOf "Sep", 9), (bsOf "Oct", 10), (bsOf "Nov", 11), (bsOf "Dec", 12)]

/-- Strip a month name, returning its number. -/
def stripMonth : List (Bytes × Nat) → Bytes → Option (Nat × Bytes)
  | [], _ => none
  | (p, n) :: ps, s =>
    match stripLit p s with
    | some r => some (n, r)
    | none => stripMonth ps s

/-- Month matcher. -/
def rxMonth : Rx Nat := fun s => stripMonth monthTable s

/-- Is a byte a UTF-8 continuation byte `80..BF`? -/
def isCont (b : Nat) : Bool := 128 ≤ b && b ≤ 191

/-- Consume one byte sequence that the `regex` crate's Unicode-mode `.`
matches: a valid UTF-8 scalar-value encoding other than `\n`. -/
def dotScalar : Bytes → Option Bytes
  | [] => none
  | b :: r =>
    if b == 10 then none
    else if b ≤ 127 then some r
    else if 194 ≤ b && b ≤ 223 then
      match r with
      | b1 :: r1 => if isCont b1 then some r1 else none
      | [] => none
    else if b == 224 then
      match r with
      | b1 :: b2 :: r2 => if (160 ≤ b1 && b1 ≤ 191) && isCont b2 then some r2 else none
      | _ => none
    else if (225 ≤ b && b ≤ 236) || b == 238 || b == 239 then
      match r with
      | b1 :: b2 :: r2 => if isCont b1 && isCont b2 then some r2 else none
      | _ => none
    else if b == 237 then
      match r with
      | b1 :: b2 :: r2 => if (128 ≤ b1 && b1 ≤ 159) && isCont b2 then some r2 else none
      | _ => none
    else if b == 240 then
      match r with
      | b1 :: b2 :: b3 :: r3 =>
        if (144 ≤ b1 && b1 ≤ 191) && isCont b2 && isCont b3 then some r3 else none
      | _ => none
    else if 241 ≤ b && b ≤ 243 then
      match r with
      | b1 :: b2 :: b3 :: r3 => if isCont b1 && isCont b2 && isCont b3 then some r3 else none
      | _ => none
    else if b == 244 then
      match r with
      | b1 :: b2 :: b3 :: r3 =>
        if (128 ≤ b1 && b1 ≤ 143) && isCont b2 && isCont b3 then some r3 else none
      | _ => none
    else none

/-- Does `(.*)$` (Unicode mode, bytes) match the whole remainder?  It does
exactly when the remainder is newline-free valid UTF-8. -/
def dotStarOk (fuel : Nat) (l : Bytes) : Bool :=
  match fuel, l with
  | _, [] => true
  | 0, _ => false
  | f + 1, l =>
    match dotScalar l with
    | some r => dotStarOk f r
    | none => false

/-- The final `(.*)$` capture group: succeeds on a newline-free valid UTF-8
remainder, returning it whole. -/
def rxTail : Rx Bytes := fun s =>
  if dotStarOk s.length s then some (s, []) else none

/-- Captures of `C_LOG_RE` (pattern #1, C-style). -/
structure CCaps where
  month : Nat
  day : Nat
  h : Nat
  mi : Nat
  s : Nat
  year : Nat
  msg : Bytes
deriving DecidableEq

/-- `C_LOG_RE`: `^\[?(?:Wkd)\x20(Mon)\x20([0-9]+)\x20([0-9]{2}):([0-9]{2}):([0-9]{2})(?:\.[0-9]+)?\x20([0-9]+)\]?[\t\x20](.*)$`. -/
def cMatch : Rx CCaps := do
  rxOptByte 91
  rxWkdSp
  let mon ← rxMonth
  rxByte 32
  let day ← rxDigitsRun
  rxByte 32
  let h ← rxDigits2
  rxByte 58
  let mi ← rxDigits2
  rxByte 58
  let s2 ← rxDigits2
  rxOptFrac
  rxByte 32
  let yr ← rxDigitsRun
  rxOptByte 93
  rxSep
  let msg ← rxTail
  pure ⟨mon, day, h, mi, s2, yr, msg⟩

/-- Captures of `SHORT_LOG_RE` (pattern #2, Short). -/
structure ShortCaps where
  month : Nat
  day : Nat
  h : Nat
  mi : Nat
  s : Nat
  msg : Bytes
deriving DecidableEq

/-- `SHORT_LOG_RE`: like `C_LOG_RE` but the weekday group is optional and
there is no year field. -/
def shortMatch : Rx ShortCaps := do
  rxOptByte 91
  rxOptWkdSp
  let mon ← rxMonth
  rxByte 32
  let day ← rxDigitsRun
  rxByte 32
  let h ← rxDigits2
  rxByte 58
  let mi ← rxDigits2
  rxByte 58
  let s2 ← rxDigits2
  rxOptFrac
  rxOptByte 93
  rxSep
  let msg ← rxTail
  pure ⟨mon, day, h, mi, s2, msg⟩

/-- Captures of `SIMPLE_LOG_RE` (pattern #3, Simple). -/
structure SimpleCaps where
  h : Nat
  mi : Nat
  s : Nat
  msg : Bytes
deriving DecidableEq

/-- `SIMPLE_LOG_RE`: `^\[?([0-9]+):([0-9]+):([0-9]+)\]?[\t\x20](.*)$`. -/
def simpleMatch : Rx SimpleCaps := do
  rxOptByte 91
  let h ← rxDigitsRun
  rxByte 58
  let mi ← rxDigitsRun
  rxByte 58
  let s2 ← rxDigitsRun
  rxOptByte 93
  rxSep
  let msg ← rxTail
  pure ⟨h, mi, s2, msg⟩

/-- Captures of `COMMON_LOG_RE` (pattern #4, Common). -/
structure CommonCaps where
  year : Nat
  month : Nat
  day : Nat
  h : Nat
  mi : Nat
  s : Nat
  plus : Bool
  offH : Nat
  offM : Nat
  msg : Bytes
deriving DecidableEq

/-- `COMMON_LOG_RE`: `^\[?([0-9]{4})-([0-9]{2})-([0-9]{2})\x20([0-9]{2}):([0-9]{2}):([0-9]{2})\x20([+-])([0-9]{2})([0-9]{2}):?\]?[\t\x20](.*)$`. -/
def commonMatch : Rx CommonCaps := do
  rxOptByte 91
  let yr ← rxDigits4
  rxByte 45
  let mo ← rxDigits2
  rxByte 45
  let dy ← rxDigits2
  rxByte 32
  let h ← rxDigits2
  rxByte 58
  let mi ← rxDigits2
  rxByte 58
  let s2 ← rxDigits2
  rxByte 32
  let sg ← rxPlusMinus
  let oh ← rxDigits2
  let om ← rxDigits2
  rxOptByte 58
  rxOptByte 93
  rxSep
  let msg ← rxTail
  pure ⟨yr, mo, dy, h, mi, s2, sg, oh, om, msg⟩

/-- Captures of `COMMON_ALT_LOG_RE` (pattern #5, Common-Alt). -/
structure AltCaps where
  month : Nat
  day : Nat
  h : Nat
  mi : Nat
  s : Nat
  year : Nat
  msg : Bytes
deriving DecidableEq

/-- `COMMON_ALT_LOG_RE`: optional weekday, month, `\x20+`, day run, time,
optional fraction, space, 4-digit year, `\]?`, separator, message. -/
def altMatch : Rx AltCaps := do
  rxOptByte 91
  rxOptWkdSp
  let mon ← rxMonth
  rxSpaces1
  let day ← rxDigitsRun
  rxByte 32
  let h ← rxDigits2
  rxByte 58
  let mi ← rxDigits2
  rxByte 58
  let s2 ← rxDigits2
  rxOptFrac
  rxByte 32
  let yr ← rxDigits4
  rxOptByte 93
  rxSep
  let msg ← rxTail
  pure ⟨mon, day, h, mi, s2, yr, msg⟩

/-- Captures of `COMMON_ALT2_LOG_RE` (pattern #6, Common-Alt2). -/
structure Alt2Caps where
  month : Nat
  day : Nat
  year : Nat
  h : Nat
  mi : Nat
  s : Nat
  msg : Bytes
deriving DecidableEq

/-- `COMMON_ALT2_LOG_RE`: optional weekday, month, `\x20+`, day run, `,?`,
space, 4-digit year, space, time, optional fraction, `\]?`, separator,
message. -/
def alt2Match : Rx Alt2Caps := do
  rxOptByte 91
  rxOptWkdSp
  let mon ← rxMonth
  rxSpaces1
  let day ← rxDigitsRun
  rxOptByte 44
  rxByte 32
  let yr ← rxDigits4
  rxByte 32
  let h ← rxDigits2
  rxByte 58
  let mi ← rxDigits2
  rxByte 58
  let s2 ← rxDigits2
  rxOptFrac
  rxOptByte 93
  rxSep
  let msg ← rxTail
  pure ⟨mon, day, yr, h, mi, s2, msg⟩

/-- Captures of `UE4_LOG_RE` (pattern #7, Engine-style). -/
structure Ue4Caps where
  year : Nat
  month : Nat
  day : Nat
  h : Nat
  mi : Nat
  s : Nat
  msg : Bytes
deriving DecidableEq

/-- `UE4_LOG_RE`: `^\[([0-9]+)\.([0-9]+)\.([0-9]+)-([0-9]+)\.([0-9]+)\.([0-9]+):(?:[0-9]+)\]\[\x20+[0-9]+\](.*)$`. -/
def ue4Match : Rx Ue4Caps := do
  rxByte 91
  let yr ← rxDigitsRun
  rxByte 46
  let mo ← rxDigitsRun
  rxByte 46
  let dy ← rxDigitsRun
  rxByte 45
  let h ← rxDigitsRun
  rxByte 46
  let mi ← rxDigitsRun
  rxByte 46
  let s2 ← rxDigitsRun
  rxByte 58
  let _ ← rxDigitsRun
  rxByte 93
  rxByte 91
  rxSpaces1
  let _ ← rxDigitsRun
  rxByte 93
  let msg ← rxTail
  pure ⟨yr, mo, dy, h, mi, s2, msg⟩

/-- The panic-aware result of a fallible computation: `Except.error ()`
models a Rust panic/abort, `Except.ok` a normal return. -/
abbrev PRes (α : Type) := Except Unit α

/-- `parser.rs` macro `log_entry_from_local_time!`: chrono `ymd` first
(panics on an invalid calendar date), then `and_hms_opt` (an invalid
time-of-day yields `None`, i.e. a pattern non-match); the zone of the
produced entry is the override offset when supplied (`from_fixed_time`),
else the ambient local zone (`from_local_time`). -/
def log_entry_from_local_time (env : Env) (off : Option Int) (y : Int)
    (mo d h mi s : Nat) (msg : Bytes) : PRes (Option LogEntry) :=
  if dateValid y mo d then
    if timeValid h mi s then
      match off with
      | some o => .ok (some ⟨some (.fixed ⟨y, mo, d, h, mi, s⟩ o), msg⟩)
      | none => .ok (some ⟨some (.localTs ⟨y, mo, d, h, mi, s⟩ env.localOffsetMinutes), msg⟩)
    else .ok none
  else .error ()

/-- `parser.rs` `parse_c_log_entry` (pattern #1). -/
def parse_c_log_entry (env : Env) (bytes : Bytes) (off : Option Int) :
    PRes (Option LogEntry) :=
  match cMatch bytes with
  | none => .ok none
  | some (c, _) =>
    if c.day ≤ u32Max then
      if c.year ≤ i32Max then
        log_entry_from_local_time env off (c.year : Int) c.month c.day c.h c.mi c.s c.msg
      else .error ()
    else .error ()

/-- `parser.rs` `parse_short_log_entry` (pattern #2): the year is inferred
from `now()`, i.e. from the ambient local zone, whatever `off` is. -/
def parse_short_log_entry (env : Env) (bytes : Bytes) (off : Option Int) :
    PRes (Option LogEntry) :=
  match shortMatch bytes with
  | none => .ok none
  | some (c, _) =>
    if c.day ≤ u32Max then
      log_entry_from_local_time env off (nowLocalCivil env).year c.month c.day c.h c.mi c.s c.msg
    else .error ()

/-- `parser.rs` `parse_simple_log_entry` (pattern #3): the date is inferred
from `today(offset)`. -/
def parse_simple_log_entry (env : Env) (bytes : Bytes) (off : Option Int) :
    PRes (Option LogEntry) :=
  match simpleMatch bytes with
  | none => .ok none
  | some (c, _) =>
    if c.h ≤ u32Max then
      if c.mi ≤ u32Max then
        if c.s ≤ u32Max then
          let ymd := today env off
          log_entry_from_local_time env off ymd.1 ymd.2.1 ymd.2.2 c.h c.mi c.s c.msg
        else .error ()
      else .error ()
    else .error ()

/-- The signed offset in minutes computed by `parse_common_log_entry`:
`(sign * HH) * 60 + MM` — the sign multiplies only the hour part. -/
def commonOffsetMinutes (c : CommonCaps) : Int :=
  (if c.plus then 1 else -1) * (c.offH : Int) * 60 + (c.offM : Int)

/-- `parser.rs` `parse_common_log_entry` (pattern #4): builds a
`FixedOffset::east` (panics when the offset reaches a full day) and a
`ymd(...).and_hms(...)` (both panic on invalid fields). -/
def parse_common_log_entry (_env : Env) (bytes : Bytes) (_off : Option Int) :
    PRes (Option LogEntry) :=
  match commonMatch bytes with
  | none => .ok none
  | some (c, _) =>
    if -1440 < commonOffsetMinutes c ∧ commonOffsetMinutes c < 1440 then
      if dateValid (c.year : Int) c.month c.day then
        if timeValid c.h c.mi c.s then
          .ok (some ⟨some (.fixed ⟨(c.year : Int), c.month, c.day, c.h, c.mi, c.s⟩
            (commonOffsetMinutes c)), c.msg⟩)
        else .error ()
      else .error ()
    else .error ()

/-- `parser.rs` `parse_common_alt_log_entry` (pattern #5). -/
def parse_common_alt_log_entry (env : Env) (bytes : Bytes) (off : Option Int) :
    PRes (Option LogEntry) :=
  match altMatch bytes with
  | none => .ok none
  | some (c, _) =>
    if c.day ≤ u32Max then
      log_entry_from_local_time env off (c.year : Int) c.month c.day c.h c.mi c.s c.msg
    else .error ()

/-- `parser.rs` `parse_common_alt2_log_entry` (pattern #6). -/
def parse_common_alt2_log_entry (env : Env) (bytes : Bytes) (off : Option Int) :
    PRes (Option LogEntry) :=
  match alt2Match bytes with
  | none => .ok none
  | some (c, _) =>
    if c.day ≤ u32Max then
      log_entry_from_local_time env off (c.year : Int) c.month c.day c.h c.mi c.s c.msg
    else .error ()

/-- `parser.rs` `parse_ue4_log_entry` (pattern #7): always UTC, via the
panicking `Utc.ymd(...).and_hms(...)`. -/
def parse_ue4_log_entry (_env : Env) (bytes : Bytes) (_off : Option Int) :
    PRes (Option LogEntry) :=
  match ue4Match bytes with
  | none => .ok none
  | some (c, _) =>
    if c.year ≤ i32Max then
      if c.month ≤ u32Max then
        if c.day ≤ u32Max then
          if c.h ≤ u32Max then
            if c.mi ≤ u32Max then
              if c.s ≤ u32Max then
                if dateValid (c.year : Int) c.month c.day then
                  if timeValid c.h c.mi c.s then
                    .ok (some ⟨some (.utc ⟨(c.year : Int), c.month, c.day, c.h, c.mi, c.s⟩), c.msg⟩)
                  else .error ()
                else .error ()
              else .error ()
            else .error ()
          else .error ()
        else .error ()
      else .error ()
    else .error ()

/-- One step of the `attempt!` chain: keep a panic or a successful entry,
fall through to the next parser on a non-match. -/
def orAttempt (a : PRes (Option LogEntry)) (b : Unit → PRes (Option LogEntry)) :
    PRes (Option LogEntry) :=
  match a with
  | .error e => .error e
  | .ok (some r) => .ok (some r)
  | .ok none => b ()

/-- `parser.rs` `parse_log_entry`: the cascade, in source order. -/
def parse_log_entry (env : Env) (bytes : Bytes) (off : Option Int) :
    PRes (Option LogEntry) :=
  orAttempt (parse_c_log_entry env bytes off) fun _ =>
  orAttempt (parse_short_log_entry env bytes off) fun _ =>
  orAttempt (parse_simple_log_entry env bytes off) fun _ =>
  orAttempt (parse_common_log_entry env bytes off) fun _ =>
  orAttempt (parse_common_alt_log_entry env bytes off) fun _ =>
  orAttempt (parse_common_alt2_log_entry env bytes off) fun _ =>
  parse_ue4_log_entry env bytes off

/-- `types.rs` `LogEntry::parse_with_local_timezone`: a cascade miss
becomes `from_message_only` (no timestamp, whole line as message). -/
def parse_with_local_timezone (env : Env) (bytes : Bytes) (off : Option Int) :
    PRes LogEntry :=
  match parse_log_entry env bytes off with
  | .error e => .error e
  | .ok (some entry) => .ok entry
  | .ok none => .ok ⟨none, bytes⟩

/-- `types.rs` `LogEntry::parse`: no override offset. -/
def LogEntry.parseLine (env : Env) (bytes : Bytes) : PRes LogEntry :=
  parse_with_local_timezone env bytes none

/-- The `\x20?` of `COMPONENT_RE`: drop at most one leading space. -/
def stripOneSpace (l : List Char) : List Char :=
  match l with
  | [] => []
  | c :: r => if c = ' ' then r else c :: r

/-- `types.rs` `component_and_message`, i.e. `COMPONENT_RE` =
`^([^:]+): ?(.*)$` applied to the (already decoded) message string:
the greedy `[^:]+` takes the maximal colon-free run (which may contain a
newline), `: ?` takes the colon and at most one following space, and
`(.*)$` requires the newline-free remainder of the string. -/
def component_and_message (msg : List Char) : Option (List Char) × List Char :=
  let token := msg.takeWhile (fun c => c ≠ ':')
  match msg.dropWhile (fun c => c ≠ ':') with
  | [] => (none, msg)
  | c :: r =>
    if c = ':' ∧ token ≠ [] ∧ (stripOneSpace r).all (fun ch => ch ≠ '\n')
    then (some token, stripOneSpace r)
    else (none, msg)

deriving instance DecidableEq for Except

/-- A convenient fully concrete environment (epoch instant, UTC ambient
zone) for evaluating the parser on sample lines. -/
def env0 : Env := ⟨0, 0⟩

/-- Unfolding equation for matcher sequencing. -/
theorem Rx.bind_eq {α β : Type} (m : Rx α) (f : α → Rx β) (s : Bytes) :
    (m >>= f) s = match m s with | none => none | some (a, r) => f a r := rfl

/-- Unfolding equation for a trivial matcher. -/
theorem Rx.pure_eq {α : Type} (a : α) (s : Bytes) : (pure a : Rx α) s = some (a, s) := rfl

/-- A matcher's unconsumed rest is a suffix of its input. -/
def SuffixOK {α : Type} (m : Rx α) : Prop :=
  ∀ s a r, m s = some (a, r) → r <:+ s

/-- The projection `g` of a matcher's capture is a suffix of its input. -/
def MsgOK {α : Type} (m : Rx α) (g : α → Bytes) : Prop :=
  ∀ s a r, m s = some (a, r) → g a <:+ s

/-- Suffix-projections propagate backwards through sequencing. -/
theorem msgOK_bind {α β : Type} {m : Rx α} {f : α → Rx β} {g : β → Bytes}
    (hm : SuffixOK m) (hf : ∀ a, MsgOK (f a) g) : MsgOK (m >>= f) g := by
  intro s b r hh
  rw [Rx.bind_eq] at hh
  cases hms : m s with
  | none => rw [hms] at hh; cases hh
  | some ar =>
    obtain ⟨a, r1⟩ := ar
    rw [hms] at hh
    exact List.IsSuffix.trans (hf a r1 b r hh) (hm s a r1 hms)

/-- `stripLit` only removes a prefix. -/
theorem stripLit_suffix : ∀ (p s r : Bytes), stripLit p s = some r → r <:+ s := by
  intro p
  induction p with
  | nil => intro s r hh; cases hh; exact List.suffix_refl _
  | cons a t ih =>
    intro s r hh
    cases s with
    | nil => cases hh
    | cons c cs =>
      unfold stripLit at hh
      split at hh
      · exact List.IsSuffix.trans (ih cs r hh) (List.suffix_cons c cs)
      · cases hh

/-- `stripAnyLit` only removes a prefix. -/
theorem stripAnyLit_suffix : ∀ (ps : List Bytes) (s r : Bytes),
    stripAnyLit ps s = some r → r <:+ s := by
  intro ps
  induction ps with
  | nil => intro s r hh; cases hh
  | cons p t ih =>
    intro s r hh
    unfold stripAnyLit at hh
    cases hsl : stripLit p s with
    | none => rw [hsl] at hh; exact ih s r hh
    | some r1 => rw [hsl] at hh; cases hh; exact stripLit_suffix p s r hsl

/-- `stripMonth` only removes a prefix. -/
theorem stripMonth_suffix : ∀ (ps : List (Bytes × Nat)) (s : Bytes) (n : Nat) (r : Bytes),
    stripMonth ps s = some (n, r) → r <:+ s := by
  intro ps
  induction ps with
  | nil => intro s n r hh; cases hh
  | cons p t ih =>
    intro s n r hh
    unfold stripMonth at hh
    cases hsl : stripLit p.1 s with
    | none => rw [hsl] at hh; exact ih s n r hh
    | some r1 => rw [hsl] at hh; cases hh; exact stripLit_suffix p.1 s r hsl

/-- `dropWhile` only removes a prefix. -/
theorem dropWhile_suffix {α : Type} (p : α → Bool) : ∀ l : List α, l.dropWhile p <:+ l := by
  intro l
  induction l with
  | nil => exact List.suffix_refl _
  | cons a t ih =>
    by_cases hp : p a
    · simpa [List.dropWhile, hp] using List.IsSuffix.trans ih (List.suffix_cons a t)
    · simp [List.dropWhile, hp]

theorem rxByte_suffixOK (b : Nat) : SuffixOK (rxByte b) := by
  intro s a r hh
  cases s with
  | nil => simp [rxByte] at hh
  | cons c cs =>
    have hred : rxByte b (c :: cs) = if (c == b) = true then some ((), cs) else none := rfl
    rw [hred] at hh
    split at hh
    · simp at hh
      subst hh
      exact List.suffix_cons c cs
    · cases hh

theorem rxOptByte_suffixOK (b : Nat) : SuffixOK (rxOptByte b) := by
  intro s a r hh
  cases s with
  | nil =>
    have hred : rxOptByte b [] = some ((), []) := rfl
    rw [hred] at hh
    simp at hh
    subst hh
    exact List.suffix_refl []
  | cons c cs =>
    have hred : rxOptByte b (c :: cs)
        = if (c == b) = true then some ((), cs) else some ((), c :: cs) := rfl
    rw [hred] at hh
    split at hh
    · simp at hh
      subst hh
      exact List.suffix_cons c cs
    · simp at hh
      subst hh
      exact List.suffix_refl _

theorem rxDigitsN_suffixOK : ∀ (n acc : Nat), SuffixOK (rxDigitsN n acc) := by
  intro n
  induction n with
  | zero =>
    intro acc s a r hh
    have hred : rxDigitsN 0 acc s = some (acc, s) := rfl
    rw [hred] at hh
    simp at hh
    obtain ⟨h1, h2⟩ := hh
    subst h2
    exact List.suffix_refl s
  | succ k ih =>
    intro acc s a r hh
    cases s with
    | nil => cases hh
    | cons c cs =>
      have hred : rxDigitsN (k + 1) acc (c :: cs)
          = if isDigitB c = true then rxDigitsN k (acc * 10 + (c - 48)) cs else none := rfl
      rw [hred] at hh
      split at hh
      · exact (ih _ cs a r hh).trans (List.suffix_cons c cs)
      · cases hh

theorem rxDigits2_suffixOK : SuffixOK rxDigits2 := rxDigitsN_suffixOK 2 0

theorem rxDigits4_suffixOK : SuffixOK rxDigits4 := rxDigitsN_suffixOK 4 0

theorem rxDigitsRun_suffixOK : SuffixOK rxDigitsRun := by
  intro s a r hh
  unfold rxDigitsRun at hh
  split at hh
  · cases hh
  · simp at hh
    obtain ⟨h1, h2⟩ := hh
    subst h2
    exact dropWhile_suffix _ s

theorem rxSpaces1_suffixOK : SuffixOK rxSpaces1 := by
  intro s a r hh
  cases s with
  | nil => cases hh
  | cons c cs =>
    have hred : rxSpaces1 (c :: cs)
        = if (c == 32) = true then some ((), cs.dropWhile (· == 32)) else none := rfl
    rw [hred] at hh
    split at hh
    · simp at hh
      subst hh
      exact (dropWhile_suffix _ cs).trans (List.suffix_cons c cs)
    · cases hh

theorem rxSep_suffixOK : SuffixOK rxSep := by
  intro s a r hh
  cases s with
  | nil => cases hh
  | cons c cs =>
    have hred : rxSep (c :: cs)
        = if (c == 9 || c == 32) = true then some ((), cs) else none := rfl
    rw [hred] at hh
    split at hh
    · simp at hh
      subst hh
      exact List.suffix_cons c cs
    · cases hh

theorem rxPlusMinus_suffixOK : SuffixOK rxPlusMinus := by
  intro s a r hh
  cases s with
  | nil => cases hh
  | cons c cs =>
    have hred : rxPlusMinus (c :: cs)
        = if (c == 43) = true then some (true, cs)
          else if (c == 45) = true then some (false, cs) else none := rfl
    rw [hred] at hh
    split at hh
    · simp at hh
      obtain ⟨h1, h2⟩ := hh
      subst h2
      exact List.suffix_cons c cs
    · split at hh
      · simp at hh
        obtain ⟨h1, h2⟩ := hh
        subst h2
        exact List.suffix_cons c cs
      · cases hh

theorem rxOptFrac_suffixOK : SuffixOK rxOptFrac := by
  intro s a r hh
  cases s with
  | nil =>
    have hred : rxOptFrac [] = some ((), []) := rfl
    rw [hred] at hh
    simp at hh
    subst hh
    exact List.suffix_refl _
  | cons c cs =>
    cases cs with
    | nil =>
      have hred : rxOptFrac [c] = some ((), [c]) := rfl
      rw [hred] at hh
      simp at hh
      subst hh
      exact List.suffix_refl _
    | cons c2 cs2 =>
      have hred : rxOptFrac (c :: c2 :: cs2)
          = if (c == 46 && isDigitB c2) = true
            then some ((), (c2 :: cs2).dropWhile isDigitB)
            else some ((), c :: c2 :: cs2) := rfl
      rw [hred] at hh
      split at hh
      · simp at hh
        subst hh
        exact (dropWhile_suffix _ (c2 :: cs2)).trans (List.suffix_cons c (c2 :: cs2))
      · simp at hh
        subst hh
        exact List.suffix_refl _

theorem rxWkdSp_suffixOK : SuffixOK rxWkdSp := by
  intro s a r hh
  unfold rxWkdSp at hh
  cases hsa : stripAnyLit weekdayNames s with
  | none => rw [hsa] at hh; cases hh
  | some r1 =>
    rw [hsa] at hh
    cases r1 with
    | nil => cases hh
    | cons c r2 =>
      have hh2 : (if (c == 32) = true then some ((), r2)
          else (none : Option (Unit × Bytes))) = some (a, r) := hh
      clear hh
      split at hh2
      · simp at hh2
        subst hh2
        exact (List.suffix_cons c r2).trans (stripAnyLit_suffix _ s _ hsa)
      · cases hh2

theorem rxOptWkdSp_suffixOK : SuffixOK rxOptWkdSp := by
  intro s a r hh
  unfold rxOptWkdSp at hh
  cases hsa : stripAnyLit weekdayNames s with
  | none =>
    rw [hsa] at hh
    simp at hh
    subst hh
    exact List.suffix_refl _
  | some r1 =>
    rw [hsa] at hh
    cases r1 with
    | nil =>
      simp at hh
      subst hh
      exact List.suffix_refl _
    | cons c r2 =>
      have hh2 : (if (c == 32) = true then some ((), r2)
          else some ((), s)) = some (a, r) := hh
      clear hh
      split at hh2
      · simp at hh2
        subst hh2
        exact (List.suffix_cons c r2).trans (stripAnyLit_suffix _ s _ hsa)
      · simp at hh2
        subst hh2
        exact List.suffix_refl _

theorem rxMonth_suffixOK : SuffixOK rxMonth := by
  intro s a r hh
  exact stripMonth_suffix monthTable s a r hh

/-- The final `rxTail`-then-`pure` step of every matcher projects the
captured message, which is exactly the remaining input. -/
theorem msgOK_tail_pure {γ : Type} (mk : Bytes → γ) (g : γ → Bytes)
    (hg : ∀ l, g (mk l) = l) : MsgOK (rxTail >>= fun msg => pure (mk msg)) g := by
  intro s a r hh
  rw [Rx.bind_eq] at hh
  cases ht : rxTail s with
  | none => rw [ht] at hh; cases hh
  | some mr =>
    obtain ⟨msg, r1⟩ := mr
    rw [ht] at hh
    simp only [Rx.pure_eq] at hh
    have hmsg : msg = s := by
      unfold rxTail at ht
      split at ht
      · cases ht; rfl
      · cases ht
    cases hh
    rw [hg, hmsg]

theorem cMatch_msgOK : MsgOK cMatch (fun c => c.msg) := by
  unfold cMatch
  refine msgOK_bind (rxOptByte_suffixOK 91) (fun _ => ?_)
  refine msgOK_bind rxWkdSp_suffixOK (fun _ => ?_)
  refine msgOK_bind rxMonth_suffixOK (fun mon => ?_)
  refine msgOK_bind (rxByte_suffixOK 32) (fun _ => ?_)
  refine msgOK_bind rxDigitsRun_suffixOK (fun day => ?_)
  refine msgOK_bind (rxByte_suffixOK 32) (fun _ => ?_)
  refine msgOK_bind rxDigits2_suffixOK (fun h => ?_)
  refine msgOK_bind (rxByte_suffixOK 58) (fun _ => ?_)
  refine msgOK_bind rxDigits2_suffixOK (fun mi => ?_)
  refine msgOK_bind (rxByte_suffixOK 58) (fun _ => ?_)
  refine msgOK_bind rxDigits2_suffixOK (fun s2 => ?_)
  refine msgOK_bind rxOptFrac_suffixOK (fun _ => ?_)
  refine msgOK_bind (rxByte_suffixOK 32) (fun _ => ?_)
  refine msgOK_bind rxDigitsRun_suffixOK (fun yr => ?_)
  refine msgOK_bind (rxOptByte_suffixOK 93) (fun _ => ?_)
  refine msgOK_bind rxSep_suffixOK (fun _ => ?_)
  exact msgOK_tail_pure _ _ (fun l => rfl)

theorem shortMatch_msgOK : MsgOK shortMatch (fun c => c.msg) := by
  unfold shortMatch
  refine msgOK_bind (rxOptByte_suffixOK 91) (fun _ => ?_)
  refine msgOK_bind rxOptWkdSp_suffixOK (fun _ => ?_)
  refine msgOK_bind rxMonth_suffixOK (fun mon => ?_)
  refine msgOK_bind (rxByte_suffixOK 32) (fun _ => ?_)
  refine msgOK_bind rxDigitsRun_suffixOK (fun day => ?_)
  refine msgOK_bind (rxByte_suffixOK 32) (fun _ => ?_)
  refine msgOK_bind rxDigits2_suffixOK (fun h => ?_)
  refine msgOK_bind (rxByte_suffixOK 58) (fun _ => ?_)
  refine msgOK_bind rxDigits2_suffixOK (fun mi => ?_)
  refine msgOK_bind (rxByte_suffixOK 58) (fun _ => ?_)
  refine msgOK_bind rxDigits2_suffixOK (fun s2 => ?_)
  refine msgOK_bind rxOptFrac_suffixOK (fun _ => ?_)
  refine msgOK_bind (rxOptByte_suffixOK 93) (fun _ => ?_)
  refine msgOK_bind rxSep_suffixOK (fun _ => ?_)
  exact msgOK_tail_pure _ _ (fun l => rfl)

theorem simpleMatch_msgOK : MsgOK simpleMatch (fun c => c.msg) := by
  unfold simpleMatch
  refine msgOK_bind (rxOptByte_suffixOK 91) (fun _ => ?_)
  refine msgOK_bind rxDigitsRun_suffixOK (fun h => ?_)
  refine msgOK_bind (rxByte_suffixOK 58) (fun _ => ?_)
  refine msgOK_bind rxDigitsRun_suffixOK (fun mi => ?_)
  refine msgOK_bind (rxByte_suffixOK 58) (fun _ => ?_)
  refine msgOK_bind rxDigitsRun_suffixOK (fun s2 => ?_)
  refine msgOK_bind (rxOptByte_suffixOK 93) (fun _ => ?_)
  refine msgOK_bind rxSep_suffixOK (fun _ => ?_)
  exact msgOK_tail_pure _ _ (fun l => rfl)

theorem commonMatch_msgOK : MsgOK commonMatch (fun c => c.msg) := by
  unfold commonMatch
  refine msgOK_bind (rxOptByte_suffixOK 91) (fun _ => ?_)
  refine msgOK_bind rxDigits4_suffixOK (fun yr => ?_)
  refine msgOK_bind (rxByte_suffixOK 45) (fun _ => ?_)
  refine msgOK_bind rxDigits2_suffixOK (fun mo => ?_)
  refine msgOK_bind (rxByte_suffixOK 45) (fun _ => ?_)
  refine msgOK_bind rxDigits2_suffixOK (fun dy => ?_)
  refine msgOK_bind (rxByte_suffixOK 32) (fun _ => ?_)
  refine msgOK_bind rxDigits2_suffixOK (fun h => ?_)
  refine msgOK_bind (rxByte_suffixOK 58) (fun _ => ?_)
  refine msgOK_bind rxDigits2_suffixOK (fun mi => ?_)
  refine msgOK_bind (rxByte_suffixOK 58) (fun _ => ?_)
  refine msgOK_bind rxDigits2_suffixOK (fun s2 => ?_)
  refine msgOK_bind (rxByte_suffixOK 32) (fun _ => ?_)
  refine msgOK_bind rxPlusMinus_suffixOK (fun sg => ?_)
  refine msgOK_bind rxDigits2_suffixOK (fun oh => ?_)
  refine msgOK_bind rxDigits2_suffixOK (fun om => ?_)
  refine msgOK_bind (rxOptByte_suffixOK 58) (fun _ => ?_)
  refine msgOK_bind (rxOptByte_suffixOK 93) (fun _ => ?_)
  refine msgOK_bind rxSep_suffixOK (fun _ => ?_)
  exact msgOK_tail_pure _ _ (fun l => rfl)

theorem altMatch_msgOK : MsgOK altMatch (fun c => c.msg) := by
  unfold altMatch
  refine msgOK_bind (rxOptByte_suffixOK 91) (fun _ => ?_)
  refine msgOK_bind rxOptWkdSp_suffixOK (fun _ => ?_)
  refine msgOK_bind rxMonth_suffixOK (fun mon => ?_)
  refine msgOK_bind rxSpaces1_suffixOK (fun _ => ?_)
  refine msgOK_bind rxDigitsRun_suffixOK (fun day => ?_)
  refine msgOK_bind (rxByte_suffixOK 32) (fun _ => ?_)
  refine msgOK_bind rxDigits2_suffixOK (fun h => ?_)
  refine msgOK_bind (rxByte_suffixOK 58) (fun _ => ?_)
  refine msgOK_bind rxDigits2_suffixOK (fun mi => ?_)
  refine msgOK_bind (rxByte_suffixOK 58) (fun _ => ?_)
  refine msgOK_bind rxDigits2_suffixOK (fun s2 => ?_)
  refine msgOK_bind rxOptFrac_suffixOK (fun _ => ?_)
  refine msgOK_bind (rxByte_suffixOK 32) (fun _ => ?_)
  refine msgOK_bind rxDigits4_suffixOK (fun yr => ?_)
  refine msgOK_bind (rxOptByte_suffixOK 93) (fun _ => ?_)
  refine msgOK_bind rxSep_suffixOK (fun _ => ?_)
  exact msgOK_tail_pure _ _ (fun l => rfl)

theorem alt2Match_msgOK : MsgOK alt2Match (fun c => c.msg) := by
  unfold alt2Match
  refine msgOK_bind (rxOptByte_suffixOK 91) (fun _ => ?_)
  refine msgOK_bind rxOptWkdSp_suffixOK (fun _ => ?_)
  refine msgOK_bind rxMonth_suffixOK (fun mon => ?_)
  refine msgOK_bind rxSpaces1_suffixOK (fun _ => ?_)
  refine msgOK_bind rxDigitsRun_suffixOK (fun day => ?_)
  refine msgOK_bind (rxOptByte_suffixOK 44) (fun _ => ?_)
  refine msgOK_bind (rxByte_suffixOK 32) (fun _ => ?_)
  refine msgOK_bind rxDigits4_suffixOK (fun yr => ?_)
  refine msgOK_bind (rxByte_suffixOK 32) (fun _ => ?_)
  refine msgOK_bind rxDigits2_suffixOK (fun h => ?_)
  refine msgOK_bind (rxByte_suffixOK 58) (fun _ => ?_)
  refine msgOK_bind rxDigits2_suffixOK (fun mi => ?_)
  refine msgOK_bind (rxByte_suffixOK 58) (fun _ => ?_)
  refine msgOK_bind rxDigits2_suffixOK (fun s2 => ?_)
  refine msgOK_bind rxOptFrac_suffixOK (fun _ => ?_)
  refine msgOK_bind (rxOptByte_suffixOK 93) (fun _ => ?_)
  refine msgOK_bind rxSep_suffixOK (fun _ => ?_)
  exact msgOK_tail_pure _ _ (fun l => rfl)

theorem ue4Match_msgOK : MsgOK ue4Match (fun c => c.msg) := by
  unfold ue4Match
  refine msgOK_bind (rxByte_suffixOK 91) (fun _ => ?_)
  refine msgOK_bind rxDigitsRun_suffixOK (fun yr => ?_)
  refine msgOK_bind (rxByte_suffixOK 46) (fun _ => ?_)
  refine msgOK_bind rxDigitsRun_suffixOK (fun mo => ?_)
  refine msgOK_bind (rxByte_suffixOK 46) (fun _ => ?_)
  refine msgOK_bind rxDigitsRun_suffixOK (fun dy => ?_)
  refine msgOK_bind (rxByte_suffixOK 45) (fun _ => ?_)
  refine msgOK_bind rxDigitsRun_suffixOK (fun h => ?_)
  refine msgOK_bind (rxByte_suffixOK 46) (fun _ => ?_)
  refine msgOK_bind rxDigitsRun_suffixOK (fun mi => ?_)
  refine msgOK_bind (rxByte_suffixOK 46) (fun _ => ?_)
  refine msgOK_bind rxDigitsRun_suffixOK (fun s2 => ?_)
  refine msgOK_bind (rxByte_suffixOK 58) (fun _ => ?_)
  refine msgOK_bind rxDigitsRun_suffixOK (fun _ => ?_)
  refine msgOK_bind (rxByte_suffixOK 93) (fun _ => ?_)
  refine msgOK_bind (rxByte_suffixOK 91) (fun _ => ?_)
  refine msgOK_bind rxSpaces1_suffixOK (fun _ => ?_)
  refine msgOK_bind rxDigitsRun_suffixOK (fun _ => ?_)
  refine msgOK_bind (rxByte_suffixOK 93) (fun _ => ?_)
  exact msgOK_tail_pure _ _ (fun l => rfl)

/-- Shape of a successful `log_entry_from_local_time` without an override:
the entry carries exactly the given fields as a `Local` timestamp at the
ambient offset. -/
theorem log_entry_from_local_time_ok_none {env : Env} {y : Int}
    {mo d h mi s : Nat} {msg : Bytes} {e : LogEntry}
    (hh : log_entry_from_local_time env none y mo d h mi s msg = .ok (some e)) :
    e = ⟨some (.localTs ⟨y, mo, d, h, mi, s⟩ env.localOffsetMinutes), msg⟩ := by
  unfold log_entry_from_local_time at hh
  split at hh
  · split at hh
    · simp at hh
      exact hh.symm
    · simp at hh
  · simp at hh

/-- Shape of a successful `log_entry_from_local_time` with an override:
the entry carries exactly the given fields as a `Fixed` timestamp at the
override offset. -/
theorem log_entry_from_local_time_ok_fixed {env : Env} {o : Int} {y : Int}
    {mo d h mi s : Nat} {msg : Bytes} {e : LogEntry}
    (hh : log_entry_from_local_time env (some o) y mo d h mi s msg = .ok (some e)) :
    e = ⟨some (.fixed ⟨y, mo, d, h, mi, s⟩ o), msg⟩ := by
  unfold log_entry_from_local_time at hh
  split at hh
  · split at hh
    · simp at hh
      exact hh.symm
    · simp at hh
  · simp at hh

/-- A successful pattern-#1 parse factors through its regex captures. -/
theorem parse_c_shape {env : Env} {bytes : Bytes} {off : Option Int} {e : LogEntry}
    (hh : parse_c_log_entry env bytes off = .ok (some e)) :
    ∃ c r, cMatch bytes = some (c, r) ∧
      log_entry_from_local_time env off (c.year : Int) c.month c.day c.h c.mi c.s c.msg
        = .ok (some e) := by
  unfold parse_c_log_entry at hh
  split at hh
  · simp at hh
  · next c _ heq =>
    split at hh
    · split at hh
      · exact ⟨c, _, heq, hh⟩
      · simp at hh
    · simp at hh

/-- A successful pattern-#2 parse factors through its regex captures; the
year comes from `now()` in the ambient zone. -/
theorem parse_short_shape {env : Env} {bytes : Bytes} {off : Option Int} {e : LogEntry}
    (hh : parse_short_log_entry env bytes off = .ok (some e)) :
    ∃ c r, shortMatch bytes = some (c, r) ∧
      log_entry_from_local_time env off (nowLocalCivil env).year c.month c.day c.h c.mi c.s c.msg
        = .ok (some e) := by
  unfold parse_short_log_entry at hh
  split at hh
  · simp at hh
  · next c _ heq =>
    split at hh
    · exact ⟨c, _, heq, hh⟩
    · simp at hh

/-- A successful pattern-#3 parse factors through its regex captures; the
date comes from `today(offset)`. -/
theorem parse_simple_shape {env : Env} {bytes : Bytes} {off : Option Int} {e : LogEntry}
    (hh : parse_simple_log_entry env bytes off = .ok (some e)) :
    ∃ c r, simpleMatch bytes = some (c, r) ∧
      log_entry_from_local_time env off (today env off).1 (today env off).2.1
        (today env off).2.2 c.h c.mi c.s c.msg = .ok (some e) := by
  unfold parse_simple_log_entry at hh
  split at hh
  · simp at hh
  · next c _ heq =>
    split at hh
    · split at hh
      · split at hh
        · exact ⟨c, _, heq, hh⟩
        · simp at hh
      · simp at hh
    · simp at hh

/-- A successful pattern-#4 parse yields exactly the captured fields in a
`fixed` timestamp with the hour-signed offset. -/
theorem parse_common_shape {env : Env} {bytes : Bytes} {off : Option Int} {e : LogEntry}
    (hh : parse_common_log_entry env bytes off = .ok (some e)) :
    ∃ c r, commonMatch bytes = some (c, r) ∧
      e = ⟨some (.fixed ⟨(c.year : Int), c.month, c.day, c.h, c.mi, c.s⟩
        (commonOffsetMinutes c)), c.msg⟩ := by
  unfold parse_common_log_entry at hh
  split at hh
  · simp at hh
  · next c _ heq =>
    split at hh
    · split at hh
      · split at hh
        · simp at hh
          exact ⟨c, _, heq, hh.symm⟩
        · simp at hh
      · simp at hh
    · simp at hh

/-- A successful pattern-#5 parse factors through its regex captures. -/
theorem parse_alt_shape {env : Env} {bytes : Bytes} {off : Option Int} {e : LogEntry}
    (hh : parse_common_alt_log_entry env bytes off = .ok (some e)) :
    ∃ c r, altMatch bytes = some (c, r) ∧
      log_entry_from_local_time env off (c.year : Int) c.month c.day c.h c.mi c.s c.msg
        = .ok (some e) := by
  unfold parse_common_alt_log_entry at hh
  split at hh
  · simp at hh
  · next c _ heq =>
    split at hh
    · exact ⟨c, _, heq, hh⟩
    · simp at hh

/-- A successful pattern-#6 parse factors through its regex captures. -/
theorem parse_alt2_shape {env : Env} {bytes : Bytes} {off : Option Int} {e : LogEntry}
    (hh : parse_common_alt2_log_entry env bytes off = .ok (some e)) :
    ∃ c r, alt2Match bytes = some (c, r) ∧
      log_entry_from_local_time env off (c.year : Int) c.month c.day c.h c.mi c.s c.msg
        = .ok (some e) := by
  unfold parse_common_alt2_log_entry at hh
  split at hh
  · simp at hh
  · next c _ heq =>
    split at hh
    · exact ⟨c, _, heq, hh⟩
    · simp at hh

/-- A successful pattern-#7 parse yields exactly the captured fields in a
`utc` timestamp. -/
theorem parse_ue4_shape {env : Env} {bytes : Bytes} {off : Option Int} {e : LogEntry}
    (hh : parse_ue4_log_entry env bytes off = .ok (some e)) :
    ∃ c r, ue4Match bytes = some (c, r) ∧
      e = ⟨some (.utc ⟨(c.year : Int), c.month, c.day, c.h, c.mi, c.s⟩), c.msg⟩ := by
  unfold parse_ue4_log_entry at hh
  split at hh
  · simp at hh
  · next c _ heq =>
    split at hh
    · split at hh
      · split at hh
        · split at hh
          · split at hh
            · split at hh
              · split at hh
                · split at hh
                  · simp at hh
                    exact ⟨c, _, heq, hh.symm⟩
                  · simp at hh
                · simp at hh
              · simp at hh
            · simp at hh
          · simp at hh
        · simp at hh
      · simp at hh
    · simp at hh

/-- Case analysis for one `attempt!` step that produced an entry. -/
theorem orAttempt_ok_some {a : PRes (Option LogEntry)}
    {b : Unit → PRes (Option LogEntry)} {e : LogEntry}
    (hh : orAttempt a b = .ok (some e)) :
    a = .ok (some e) ∨ (a = .ok none ∧ b () = .ok (some e)) := by
  unfold orAttempt at hh
  split at hh
  · simp at hh
  · next r =>
    simp at hh
    subst hh
    exact Or.inl rfl
  · exact Or.inr ⟨rfl, hh⟩

/-- A cascade success comes from exactly one of the seven parsers. -/
theorem parse_log_entry_ok_some {env : Env} {bytes : Bytes} {off : Option Int} {e : LogEntry}
    (hh : parse_log_entry env bytes off = .ok (some e)) :
    parse_c_log_entry env bytes off = .ok (some e) ∨
    parse_short_log_entry env bytes off = .ok (some e) ∨
    parse_simple_log_entry env bytes off = .ok (some e) ∨
    parse_common_log_entry env bytes off = .ok (some e) ∨
    parse_common_alt_log_entry env bytes off = .ok (some e) ∨
    parse_common_alt2_log_entry env bytes off = .ok (some e) ∨
    parse_ue4_log_entry env bytes off = .ok (some e) := by
  unfold parse_log_entry at hh
  rcases orAttempt_ok_some hh with h1 | ⟨-, hh⟩
  · exact Or.inl h1
  rcases orAttempt_ok_some hh with h2 | ⟨-, hh⟩
  · exact Or.inr (Or.inl h2)
  rcases orAttempt_ok_some hh with h3 | ⟨-, hh⟩
  · exact Or.inr (Or.inr (Or.inl h3))
  rcases orAttempt_ok_some hh with h4 | ⟨-, hh⟩
  · exact Or.inr (Or.inr (Or.inr (Or.inl h4)))
  rcases orAttempt_ok_some hh with h5 | ⟨-, hh⟩
  · exact Or.inr (Or.inr (Or.inr (Or.inr (Or.inl h5))))
  rcases orAttempt_ok_some hh with h6 | ⟨-, hh⟩
  · exact Or.inr (Or.inr (Or.inr (Or.inr (Or.inr (Or.inl h6)))))
  exact Or.inr (Or.inr (Or.inr (Or.inr (Or.inr (Or.inr hh)))))

/-- The characters of a string, for `component_and_message` inputs. -/
def cAr (s : String) : List Char := s.data

def lineC1 : Bytes := bsOf "Tue Feb 30 12:00:00 2017 hello"

def lineC3 : Bytes := bsOf "2015-05-13 24:00:00 +0200: x"

def lineC6 : Bytes := bsOf "Tue Nov 21 00:30:05 2017 x"

def lineC7 : Bytes := bsOf "Tue Nov 21 99:99:99 2017 x"

/-- The message `Repaired 'X'` of the spec's Common-pattern example (byte
39 is the apostrophe). -/
def msgRepaired : Bytes := bsOf "Repaired " ++ 39 :: (bsOf "X" ++ [39])

def lineC5 : Bytes := bsOf "2015-05-13 17:39:16 +0200: " ++ msgRepaired

def lineC5neg : Bytes := bsOf "2015-05-13 17:39:16 -0230: hello"

def capsC5 : CommonCaps := ⟨2015, 5, 13, 17, 39, 16, true, 2, 0, msgRepaired⟩

def entryC5 : LogEntry := ⟨some (.fixed ⟨2015, 5, 13, 17, 39, 16⟩ 120), msgRepaired⟩

/-- Environment for the C4 counterexample: the instant is
2016-12-31T23:30:00Z and the ambient zone is +01:00, so ambient "now" is
2017-01-01T00:30 while "now" at offset +00:00 is still in 2016. -/
def envC4 : Env := ⟨civilToSeconds ⟨2016, 12, 31, 23, 30, 0⟩, 60⟩

def lineC4 : Bytes := bsOf "Dec 31 23:45:00 boom"

def lineUe4 : Bytes := bsOf "[2018.10.29-16.56.37:542][  0]x"

/-- C1: the spec claims the top-level parse returns a `LogEntry` for every
byte sequence and never panics.  The code violates this: on
`Tue Feb 30 12:00:00 2017 hello` the C-style pattern matches structurally
and chrono's panicking `Local.ymd(2017, 2, 30)` aborts the process instead
of returning an entry (`.error ()` models the panic). -/
theorem C1_parse_panics_on_invalid_date :
    LogEntry.parseLine env0 lineC1 = .error () := by decide

/-- C3: the spec claims invalid calendar fields are absorbed as a pattern
non-match and the cascade continues.  The code violates this for pattern
#4: `2015-05-13 24:00:00 +0200: x` matches the Common pattern structurally,
hour 24 is invalid, and the panicking `and_hms` aborts the whole parse
instead of falling through (only `and_hms_opt` in patterns 1,2,3,5,6
absorbs invalid times). -/
theorem C3_invalid_fields_abort_parse :
    (commonMatch lineC3).isSome = true ∧
    parse_log_entry env0 lineC3 none = .error () := by
  constructor
  · decide
  · decide

/-- C7: `Tue Nov 21 99:99:99 2017 x` falls through the entire cascade —
the invalid time 99:99:99 is rejected by `and_hms_opt` in every
structurally matching pattern — and the returned entry has no timestamp and
the full original line as its message. -/
theorem C7_invalid_time_falls_through :
    LogEntry.parseLine env0 lineC7 = .ok ⟨none, lineC7⟩ := by decide

/-- C2 counterexample: a line matched by pattern #1, parsed with an
override offset, yields a `Fixed` timestamp (`from_fixed_time`), not the
`Local` the claim asserts for every override choice. -/
theorem C2_counterexample :
    parse_c_log_entry env0 lineC6 (some 60)
      = .ok (some ⟨some (.fixed ⟨2017, 11, 21, 0, 30, 5⟩ 60), bsOf "x"⟩) ∧
    (⟨some (.fixed ⟨2017, 11, 21, 0, 30, 5⟩ 60), bsOf "x"⟩ : LogEntry).zoneKind
      ≠ some ZoneKind.localK := by
  constructor
  · decide
  · decide

/-- C2 (amended): pattern #4 always yields `Fixed` and pattern #7 always
`Utc`; patterns #1, #2, #3, #5, #6 yield `Local` when no override offset is
supplied and `Fixed` (at the override offset) when one is. -/
theorem C2_zone_kinds (env : Env) (bytes : Bytes) (off : Option Int) (e : LogEntry) :
    (parse_common_log_entry env bytes off = .ok (some e) → e.zoneKind = some ZoneKind.fixedK) ∧
    (parse_ue4_log_entry env bytes off = .ok (some e) → e.zoneKind = some ZoneKind.utcK) ∧
    ((parse_c_log_entry env bytes off = .ok (some e) ∨
      parse_short_log_entry env bytes off = .ok (some e) ∨
      parse_simple_log_entry env bytes off = .ok (some e) ∨
      parse_common_alt_log_entry env bytes off = .ok (some e) ∨
      parse_common_alt2_log_entry env bytes off = .ok (some e)) →
      e.zoneKind = some (match off with
        | none => ZoneKind.localK
        | some _ => ZoneKind.fixedK)) := by
  refine ⟨?_, ?_, ?_⟩
  · intro hh
    obtain ⟨c, r, -, he⟩ := parse_common_shape hh
    subst he
    rfl
  · intro hh
    obtain ⟨c, r, -, he⟩ := parse_ue4_shape hh
    subst he
    rfl
  · intro hh
    have lelt : ∃ y mo d h mi s msg,
        log_entry_from_local_time env off y mo d h mi s msg = .ok (some e) := by
      rcases hh with h | h | h | h | h
      · obtain ⟨c, r, -, he⟩ := parse_c_shape h
        exact ⟨_, _, _, _, _, _, _, he⟩
      · obtain ⟨c, r, -, he⟩ := parse_short_shape h
        exact ⟨_, _, _, _, _, _, _, he⟩
      · obtain ⟨c, r, -, he⟩ := parse_simple_shape h
        exact ⟨_, _, _, _, _, _, _, he⟩
      · obtain ⟨c, r, -, he⟩ := parse_alt_shape h
        exact ⟨_, _, _, _, _, _, _, he⟩
      · obtain ⟨c, r, -, he⟩ := parse_alt2_shape h
        exact ⟨_, _, _, _, _, _, _, he⟩
    obtain ⟨y, mo, d, h, mi, s, msg, he⟩ := lelt
    cases off with
    | none =>
      have hsh := log_entry_from_local_time_ok_none he
      subst hsh
      rfl
    | some o =>
      have hsh := log_entry_from_local_time_ok_fixed he
      subst hsh
      rfl

/-- C2 witness: concrete instances of each zone-kind case — pattern #4
gives `Fixed`, #7 gives `Utc`, #1 without an override gives `Local`. -/
theorem C2_zone_kinds_witness :
    (⟨some (.fixed ⟨2015, 5, 13, 17, 39, 16⟩ 120), msgRepaired⟩ : LogEntry).zoneKind
        = some ZoneKind.fixedK ∧
    (⟨some (.utc ⟨2018, 10, 29, 16, 56, 37⟩), bsOf "x"⟩ : LogEntry).zoneKind
        = some ZoneKind.utcK ∧
    (⟨some (.localTs ⟨2017, 11, 21, 0, 30, 5⟩ 0), bsOf "x"⟩ : LogEntry).zoneKind
        = some ZoneKind.localK := by
  refine ⟨(C2_zone_kinds env0 lineC5 none _).1 (by decide),
          (C2_zone_kinds env0 lineUe4 none _).2.1 (by decide),
          (C2_zone_kinds env0 lineC6 none _).2.2 (Or.inl (by decide))⟩

def lineSimpleC4 : Bytes := bsOf "12:30:00 x"

/-- C4 counterexample: at instant 2016-12-31T23:30:00Z with ambient zone
+01:00, the override is not used as "local" by either inference.  With
override +00:00, "now" in the override zone still has year 2016, but the
Short pattern infers year 2017 from the ambient zone.  With override
+02:00, "today" in the override zone is 2017-01-01, but the Simple pattern
dates the entry 2016-12-31 — the UTC calendar date, because chrono 0.4's
`Date::with_timezone` does not change the date. -/
theorem C4_counterexample :
    parse_with_local_timezone envC4 lineC4 (some 0)
      = .ok ⟨some (.fixed ⟨2017, 12, 31, 23, 45, 0⟩ 0), bsOf "boom"⟩ ∧
    (secondsToCivil (envC4.nowUtcSeconds + 0 * 60)).year = 2016 ∧
    (2017 : Int) ≠ 2016 ∧
    parse_with_local_timezone envC4 lineSimpleC4 (some 120)
      = .ok ⟨some (.fixed ⟨2016, 12, 31, 12, 30, 0⟩ 120), bsOf "x"⟩ ∧
    ((secondsToCivil (envC4.nowUtcSeconds + 120 * 60)).year,
     (secondsToCivil (envC4.nowUtcSeconds + 120 * 60)).month,
     (secondsToCivil (envC4.nowUtcSeconds + 120 * 60)).day) = ((2017 : Int), 1, 1) ∧
    ((2016 : Int), (12 : Nat), (31 : Nat)) ≠ ((2017 : Int), (1 : Nat), (1 : Nat)) := by
  refine ⟨by decide, by decide, by decide, by decide, by decide, by decide⟩

/-- C4 (amended): neither inference uses the override offset as "local":
pattern #2's "now" year always comes from the ambient zone, and pattern
#3's "today" date under an override is the current UTC calendar date
whatever the override's value (`Date::with_timezone` leaves the date
unchanged); with no override the ambient zone serves both. -/
theorem C4_missing_field_inference (env : Env) (bytes : Bytes) (off : Option Int)
    (e : LogEntry) :
    (parse_short_log_entry env bytes off = .ok (some e) →
      e.tsYear = some (nowLocalCivil env).year) ∧
    (parse_simple_log_entry env bytes off = .ok (some e) →
      e.timestamp.map (fun t => (t.civil.year, t.civil.month, t.civil.day))
        = some (today env off)) ∧
    today env none = ((nowLocalCivil env).year, (nowLocalCivil env).month,
      (nowLocalCivil env).day) ∧
    (∀ o : Int, today env (some o)
      = ((secondsToCivil env.nowUtcSeconds).year,
         (secondsToCivil env.nowUtcSeconds).month,
         (secondsToCivil env.nowUtcSeconds).day)) := by
  refine ⟨?_, ?_, rfl, fun o => rfl⟩
  · intro hh
    obtain ⟨c, r, -, he⟩ := parse_short_shape hh
    cases off with
    | none =>
      have hsh := log_entry_from_local_time_ok_none he
      subst hsh
      rfl
    | some o =>
      have hsh := log_entry_from_local_time_ok_fixed he
      subst hsh
      rfl
  · intro hh
    obtain ⟨c, r, -, he⟩ := parse_simple_shape hh
    cases off with
    | none =>
      have hsh := log_entry_from_local_time_ok_none he
      subst hsh
      rfl
    | some o =>
      have hsh := log_entry_from_local_time_ok_fixed he
      subst hsh
      rfl

/-- C4 witness: at concrete lines, environment and overrides, the Short
pattern infers exactly the ambient "now" year (2017, not the override
zone's 2016) and the Simple pattern dates the entry exactly by
`today(offset)`, the UTC calendar date. -/
theorem C4_witness :
    (⟨some (.fixed ⟨2017, 12, 31, 23, 45, 0⟩ 0), bsOf "boom"⟩ : LogEntry).tsYear
      = some (nowLocalCivil envC4).year ∧
    (⟨some (.fixed ⟨2016, 12, 31, 12, 30, 0⟩ 120), bsOf "x"⟩ : LogEntry).timestamp.map
        (fun t => (t.civil.year, t.civil.month, t.civil.day))
      = some (today envC4 (some 120)) :=
  ⟨(C4_missing_field_inference envC4 lineC4 (some 0) _).1 (by decide),
   (C4_missing_field_inference envC4 lineSimpleC4 (some 120) _).2.1 (by decide)⟩

/-- C5 counterexample: on `2015-05-13 17:39:16 -0230: hello` the code
computes the offset as (−1)·2·60 + 30 = −90 minutes, not −(2·60+30) = −150:
the sign is not applied to the minute part, and the UTC instant is
2015-05-13T19:09:16Z rather than the 20:09:16Z the claim's rule implies. -/
theorem C5_counterexample :
    LogEntry.parseLine env0 lineC5neg
      = .ok ⟨some (.fixed ⟨2015, 5, 13, 17, 39, 16⟩ (-90)), bsOf "hello"⟩ ∧
    (-90 : Int) ≠ -(2 * 60 + 30) ∧
    (⟨some (.fixed ⟨2015, 5, 13, 17, 39, 16⟩ (-90)), bsOf "hello"⟩ : LogEntry).utcSeconds
      = some (civilToSeconds ⟨2015, 5, 13, 19, 9, 16⟩) ∧
    civilToSeconds ⟨2015, 5, 13, 19, 9, 16⟩ ≠ civilToSeconds ⟨2015, 5, 13, 20, 9, 16⟩ := by
  refine ⟨by decide, by decide, by decide, by decide⟩

/-- C5 (amended): every successful Common-pattern parse yields a `Fixed`
entry whose offset is `(sign·HH)·60 + MM` minutes — the textual sign
multiplies the hour part only — and whose UTC instant is the captured
wall-clock fields minus that offset. -/
theorem C5_common_offset (env : Env) (bytes : Bytes) (off : Option Int)
    (c : CommonCaps) (r : Bytes) (e : LogEntry)
    (hm : commonMatch bytes = some (c, r))
    (hp : parse_common_log_entry env bytes off = .ok (some e)) :
    e = ⟨some (.fixed ⟨(c.year : Int), c.month, c.day, c.h, c.mi, c.s⟩
      ((if c.plus then 1 else -1) * (c.offH : Int) * 60 + (c.offM : Int))), c.msg⟩ ∧
    e.utcSeconds = some (civilToSeconds ⟨(c.year : Int), c.month, c.day, c.h, c.mi, c.s⟩
      - ((if c.plus then 1 else -1) * (c.offH : Int) * 60 + (c.offM : Int)) * 60) := by
  obtain ⟨c2, r2, hm2, he⟩ := parse_common_shape hp
  rw [hm] at hm2
  simp at hm2
  obtain ⟨h1, h2⟩ := hm2
  subst h1
  subst he
  exact ⟨rfl, rfl⟩

/-- C5 witness: the spec's example line — the `+0200` offset parses to 120
minutes and the entry's UTC instant is 2015-05-13T15:39:16Z with message
`Repaired 'X'`. -/
theorem C5_witness :
    entryC5 = ⟨some (.fixed ⟨2015, 5, 13, 17, 39, 16⟩ 120), msgRepaired⟩ ∧
    entryC5.utcSeconds = some (civilToSeconds ⟨2015, 5, 13, 15, 39, 16⟩) := by
  have hh := C5_common_offset env0 lineC5 none capsC5 [] entryC5 (by decide) (by decide)
  exact ⟨hh.1.trans (by decide), hh.2.trans (by decide)⟩

/-- C6: the cascade attempts the patterns strictly in the order #1..#7:
whenever patterns 1..k−1 fail to match and pattern k produces an entry, the
cascade returns pattern k's entry. -/
theorem C6_priority_order (env : Env) (bytes : Bytes) (off : Option Int) (e : LogEntry) :
    (parse_c_log_entry env bytes off = .ok (some e) →
      parse_log_entry env bytes off = .ok (some e)) ∧
    (parse_c_log_entry env bytes off = .ok none →
      parse_short_log_entry env bytes off = .ok (some e) →
      parse_log_entry env bytes off = .ok (some e)) ∧
    (parse_c_log_entry env bytes off = .ok none →
      parse_short_log_entry env bytes off = .ok none →
      parse_simple_log_entry env bytes off = .ok (some e) →
      parse_log_entry env bytes off = .ok (some e)) ∧
    (parse_c_log_entry env bytes off = .ok none →
      parse_short_log_entry env bytes off = .ok none →
      parse_simple_log_entry env bytes off = .ok none →
      parse_common_log_entry env bytes off = .ok (some e) →
      parse_log_entry env bytes off = .ok (some e)) ∧
    (parse_c_log_entry env bytes off = .ok none →
      parse_short_log_entry env bytes off = .ok none →
      parse_simple_log_entry env bytes off = .ok none →
      parse_common_log_entry env bytes off = .ok none →
      parse_common_alt_log_entry env bytes off = .ok (some e) →
      parse_log_entry env bytes off = .ok (some e)) ∧
    (parse_c_log_entry env bytes off = .ok none →
      parse_short_log_entry env bytes off = .ok none →
      parse_simple_log_entry env bytes off = .ok none →
      parse_common_log_entry env bytes off = .ok none →
      parse_common_alt_log_entry env bytes off = .ok none →
      parse_common_alt2_log_entry env bytes off = .ok (some e) →
      parse_log_entry env bytes off = .ok (some e)) ∧
    (parse_c_log_entry env bytes off = .ok none →
      parse_short_log_entry env bytes off = .ok none →
      parse_simple_log_entry env bytes off = .ok none →
      parse_common_log_entry env bytes off = .ok none →
      parse_common_alt_log_entry env bytes off = .ok none →
      parse_common_alt2_log_entry env bytes off = .ok none →
      parse_ue4_log_entry env bytes off = .ok (some e) →
      parse_log_entry env bytes off = .ok (some e)) := by
  refine ⟨?_, ?_, ?_, ?_, ?_, ?_, ?_⟩
  · intro h1
    simp [parse_log_entry, orAttempt, h1]
  · intro h1 h2
    simp [parse_log_entry, orAttempt, h1, h2]
  · intro h1 h2 h3
    simp [parse_log_entry, orAttempt, h1, h2, h3]
  · intro h1 h2 h3 h4
    simp [parse_log_entry, orAttempt, h1, h2, h3, h4]
  · intro h1 h2 h3 h4 h5
    simp [parse_log_entry, orAttempt, h1, h2, h3, h4, h5]
  · intro h1 h2 h3 h4 h5 h6
    simp [parse_log_entry, orAttempt, h1, h2, h3, h4, h5, h6]
  · intro h1 h2 h3 h4 h5 h6 h7
    simp [parse_log_entry, orAttempt, h1, h2, h3, h4, h5, h6, h7]

/-- C6 witness: `Tue Nov 21 00:30:05 2017 x` structurally matches both
pattern #1 and pattern #2, and the cascade resolves it via pattern #1: the
year is the explicit 2017 and the message is `x` (pattern #2 would have
inferred the year from "now" and kept `2017 x` as message). -/
theorem C6_witness :
    (cMatch lineC6).isSome = true ∧ (shortMatch lineC6).isSome = true ∧
    parse_log_entry env0 lineC6 none
      = .ok (some ⟨some (.localTs ⟨2017, 11, 21, 0, 30, 5⟩ 0), bsOf "x"⟩) := by
  refine ⟨by decide, by decide,
    (C6_priority_order env0 lineC6 none _).1 (by decide)⟩

/-- The message of a successful `log_entry_from_local_time` is the captured
message bytes. -/
theorem log_entry_from_local_time_message {env : Env} {off : Option Int} {y : Int}
    {mo d h mi s : Nat} {msg : Bytes} {e : LogEntry}
    (hh : log_entry_from_local_time env off y mo d h mi s msg = .ok (some e)) :
    e.message = msg := by
  cases off with
  | none =>
    have hsh := log_entry_from_local_time_ok_none hh
    subst hsh
    rfl
  | some o =>
    have hsh := log_entry_from_local_time_ok_fixed hh
    subst hsh
    rfl

/-- C9: whatever the outcome of a non-panicking parse, the returned message
is a contiguous suffix of the input line: for a matched line it is the
final capture after the timestamp prefix and separator, for an unmatched
line the whole line, so prefix ++ separator ++ message reassembles the
input byte-for-byte. -/
theorem C9_message_suffix (env : Env) (bytes : Bytes) (off : Option Int) (e : LogEntry)
    (hh : parse_with_local_timezone env bytes off = .ok e) :
    e.message <:+ bytes := by
  unfold parse_with_local_timezone at hh
  split at hh
  · cases hh
  · next entry heq =>
    simp at hh
    subst hh
    rcases parse_log_entry_ok_some heq with h | h | h | h | h | h | h
    · obtain ⟨c, r, hm, he⟩ := parse_c_shape h
      rw [log_entry_from_local_time_message he]
      exact cMatch_msgOK bytes c r hm
    · obtain ⟨c, r, hm, he⟩ := parse_short_shape h
      rw [log_entry_from_local_time_message he]
      exact shortMatch_msgOK bytes c r hm
    · obtain ⟨c, r, hm, he⟩ := parse_simple_shape h
      rw [log_entry_from_local_time_message he]
      exact simpleMatch_msgOK bytes c r hm
    · obtain ⟨c, r, hm, he⟩ := parse_common_shape h
      subst he
      exact commonMatch_msgOK bytes c r hm
    · obtain ⟨c, r, hm, he⟩ := parse_alt_shape h
      rw [log_entry_from_local_time_message he]
      exact altMatch_msgOK bytes c r hm
    · obtain ⟨c, r, hm, he⟩ := parse_alt2_shape h
      rw [log_entry_from_local_time_message he]
      exact alt2Match_msgOK bytes c r hm
    · obtain ⟨c, r, hm, he⟩ := parse_ue4_shape h
      subst he
      exact ue4Match_msgOK bytes c r hm
  · simp at hh
    subst hh
    exact List.suffix_refl bytes

/-- C9 witness: at a concrete matched line the returned message `x` is a
suffix of the input. -/
theorem C9_witness :
    (⟨some (.localTs ⟨2017, 11, 21, 0, 30, 5⟩ 0), bsOf "x"⟩ : LogEntry).message <:+ lineC6 :=
  C9_message_suffix env0 lineC6 none _ (by decide)

/-- `takeWhile`/`dropWhile` on a list that is an all-satisfying prefix
followed by a failing element: the split happens exactly there. -/
theorem takeWhile_append_stop {α : Type} (p : α → Bool) (tok : List α) (x : α)
    (rest : List α) (htok : tok.all p = true) (hx : p x = false) :
    (tok ++ x :: rest).takeWhile p = tok ∧ (tok ++ x :: rest).dropWhile p = x :: rest := by
  induction tok with
  | nil =>
    constructor
    · simp [List.takeWhile_cons, hx]
    · simp [List.dropWhile_cons, hx]
  | cons a t ih =>
    simp only [List.all_cons, Bool.and_eq_true] at htok
    have hrec := ih htok.2
    constructor
    · simpa [List.takeWhile_cons, htok.1] using hrec.1
    · simpa [List.dropWhile_cons, htok.1] using hrec.2

/-- C8 counterexample: `a: b\nc` has the form `<token>: <rest>` with token
`a` and rest `b\nc`, but the regex's `(.*)` cannot match across the
newline, so the code returns `(none, whole message)` instead of the claimed
`(some "a", "b\nc")`. -/
theorem C8_counterexample :
    cAr "a: b" ++ '\n' :: cAr "c" = cAr "a" ++ ':' :: ' ' :: (cAr "b" ++ '\n' :: cAr "c") ∧
    cAr "a" ≠ [] ∧ (cAr "a").all (fun c => c ≠ ':') = true ∧
    component_and_message (cAr "a: b" ++ '\n' :: cAr "c")
      = (none, cAr "a: b" ++ '\n' :: cAr "c") ∧
    ((none : Option (List Char)), cAr "a: b" ++ '\n' :: cAr "c")
      ≠ (some (cAr "a"), cAr "b" ++ '\n' :: cAr "c") := by
  refine ⟨by decide, by decide, by decide, by decide, by decide⟩

/-- C8 (amended): `component_and_message` splits `<token>: <rest>` and
`<token>:<rest>` (token non-empty and colon-free) into `(some token, rest)`
provided rest contains no newline; a message whose entire content is
colon-free yields `(none, whole message)`; in particular `foo: bar` splits
to `(some "foo", "bar")` and `no colon here` to `(none, itself)`. -/
theorem C8_component_split (tok rest : List Char)
    (h1 : tok ≠ []) (h2 : tok.all (fun c => c ≠ ':') = true)
    (h3 : rest.all (fun c => c ≠ '\n') = true) :
    component_and_message (tok ++ ':' :: ' ' :: rest) = (some tok, rest) ∧
    (rest.head? ≠ some ' ' → component_and_message (tok ++ ':' :: rest) = (some tok, rest)) ∧
    (∀ msg : List Char, msg.all (fun c => c ≠ ':') = true →
      component_and_message msg = (none, msg)) ∧
    component_and_message (cAr "foo: bar") = (some (cAr "foo"), cAr "bar") ∧
    component_and_message (cAr "no colon here") = (none, cAr "no colon here") := by
  have h3n : ('\n' : Char) ∉ rest := by
    intro hmem
    have hfalse := List.all_eq_true.1 h3 _ hmem
    simp at hfalse
  refine ⟨?_, ?_, ?_, by decide, by decide⟩
  · have hsp := takeWhile_append_stop (fun c => decide (c ≠ ':')) tok ':' (' ' :: rest)
      h2 (by decide)
    simp only [component_and_message, hsp.1, hsp.2]
    simp [stripOneSpace, h1, h3n]
  · intro hhd
    have hsp := takeWhile_append_stop (fun c => decide (c ≠ ':')) tok ':' rest h2 (by decide)
    have hstrip : stripOneSpace rest = rest := by
      cases rest with
      | nil => rfl
      | cons c rr =>
        have hc : ¬ c = ' ' := by
          intro hc
          exact hhd (by rw [hc]; rfl)
        simp [stripOneSpace, hc]
    simp only [component_and_message, hsp.1, hsp.2, hstrip]
    simp [h1, h3n]
  · intro msg hall
    have hdw : msg.dropWhile (fun c => c ≠ ':') = [] :=
      List.dropWhile_eq_nil_iff.2 (fun x hx => List.all_eq_true.1 hall x hx)
    simp only [component_and_message]
    rw [hdw]

/-- C8 witness: a concrete spaced split through the theorem. -/
theorem C8_witness :
    component_and_message (cAr "foo" ++ ':' :: ' ' :: cAr "bar")
      = (some (cAr "foo"), cAr "bar") :=
  (C8_component_split (cAr "foo") (cAr "bar") (by decide) (by decide) (by decide)).1

/-- C10 counterexample: `a:b\n` has the form `<token>:<rest>` with token
`a` non-empty and colon-free, but the newline in the remainder makes the
regex fail, so the code returns `(none, whole message)` rather than the
claimed `(some "a", rest)`. -/
theorem C10_counterexample :
    cAr "a:b" ++ ['\n'] = cAr "a" ++ ':' :: (cAr "b" ++ ['\n']) ∧
    cAr "a" ≠ [] ∧ (cAr "a").all (fun c => c ≠ ':') = true ∧
    component_and_message (cAr "a:b" ++ ['\n']) = (none, cAr "a:b" ++ ['\n']) ∧
    ((none : Option (List Char)), cAr "a:b" ++ ['\n'])
      ≠ (some (cAr "a"), cAr "b" ++ ['\n']) := by
  refine ⟨by decide, by decide, by decide, by decide, by decide⟩

/-- C10 (amended): on `token ++ ':' ++ rest` with token non-empty and
colon-free, `component_and_message` removes at most one leading space of
rest and returns `(some token, ·)` exactly when that remainder is
newline-free, else `(none, whole)`; a message beginning with `:` or wholly
colon-free yields `(none, message)`; a returned component is always
non-empty and colon-free. -/
theorem C10_component_detail (tok rest : List Char)
    (h1 : tok ≠ []) (h2 : tok.all (fun c => c ≠ ':') = true) :
    component_and_message (tok ++ ':' :: rest)
      = (if (stripOneSpace rest).all (fun ch => ch ≠ '\n')
         then (some tok, stripOneSpace rest)
         else (none, tok ++ ':' :: rest)) ∧
    (∀ msg : List Char, msg.head? = some ':' → component_and_message msg = (none, msg)) ∧
    (∀ msg : List Char, msg.all (fun c => c ≠ ':') = true →
      component_and_message msg = (none, msg)) ∧
    (∀ (msg t r : List Char), component_and_message msg = (some t, r) →
      t ≠ [] ∧ t.all (fun c => c ≠ ':') = true) := by
  refine ⟨?_, ?_, ?_, ?_⟩
  · have hsp := takeWhile_append_stop (fun c => decide (c ≠ ':')) tok ':' rest h2 (by decide)
    simp only [component_and_message, hsp.1, hsp.2]
    by_cases hnl : (stripOneSpace rest).all (fun ch => ch ≠ '\n') = true
    · simp [h1, hnl]
    · simp only [Bool.not_eq_true] at hnl
      simp [h1, hnl]
  · intro msg hhd
    cases msg with
    | nil => cases hhd
    | cons c cs =>
      have hc : c = ':' := by
        simpa using congrArg (fun o => o.getD ' ') hhd
      subst hc
      simp [component_and_message, List.takeWhile_cons, List.dropWhile_cons]
  · intro msg hall
    have hdw : msg.dropWhile (fun c => c ≠ ':') = [] :=
      List.dropWhile_eq_nil_iff.2 (fun x hx => List.all_eq_true.1 hall x hx)
    simp only [component_and_message]
    rw [hdw]
  · intro msg t r hcm
    simp only [component_and_message] at hcm
    split at hcm
    · simp at hcm
    · split at hcm
      · next hcond =>
        have ht : some (msg.takeWhile (fun c => c ≠ ':')) = some t := congrArg Prod.fst hcm
        have ht2 : msg.takeWhile (fun c => c ≠ ':') = t := Option.some.inj ht
        subst ht2
        refine ⟨hcond.2.1, List.all_eq_true.2 (fun x hx => ?_)⟩
        exact @List.mem_takeWhile_imp Char _ msg x hx
      · simp at hcm

/-- C10 witness: the dotted two-space example — exactly one space is
removed, `foo:  bar` yields `(some "foo", " bar")`. -/
theorem C10_witness :
    component_and_message (cAr "foo" ++ ':' :: cAr "  bar")
      = (some (cAr "foo"), cAr " bar") := by
  have hh := (C10_component_detail (cAr "foo") (cAr "  bar") (by decide) (by decide)).1
  exact hh.trans (by decide)
